import Mathlib

/-!
Verification development for the GPIRS shortage-report converter (`app.py`).

Strings are modelled as lists of characters (`Str`).  Python-level string
operations (`str.split`, `str.strip`, `str.isdigit`, `str.splitlines`,
`list.index`, negative indexing) are embedded as executable Lean functions
mirroring the source, and the record parser `parse_one_text` is embedded as
a fuelled sliding scan over the cleaned line list (the while loop of the
source advances the cursor by one or two per iteration; fuel equal to the
number of lines is always sufficient, which is proved below).
-/

/-- Strings of the Python program, modelled as character lists. -/
abbrev Str := List Char

/-- Shorthand to turn a Lean string literal into the `Str` model. -/
def cs (s : String) : Str := s.toList

/-- Whitespace as used by Python `str.split()` / `str.strip()` and the
regex class `\s` (ASCII part, which is all the program ever meets). -/
def pyIsSpace (c : Char) : Bool :=
  c == ' ' || c == '\t' || c == '\n' || c == '\r' || c == '\x0b' || c == '\x0c'

/-- Python `str.strip()`: remove leading and trailing whitespace. -/
def pyStrip (l : Str) : Str :=
  ((l.dropWhile pyIsSpace).reverse.dropWhile pyIsSpace).reverse

/-- Split a character list at every character satisfying `p`, keeping empty
segments (the splitting skeleton shared by `str.split()` and the
separator-wise field splitting used to model `strptime`). -/
def splitP (p : Char → Bool) : Str → List Str
  | [] => [[]]
  | c :: rest =>
    if p c then [] :: splitP p rest
    else
      match splitP p rest with
      | [] => [[c]]
      | t :: ts => (c :: t) :: ts

/-- Python `str.split()` with no argument: split on whitespace runs and
drop empty pieces. -/
def pySplit (l : Str) : List Str :=
  (splitP pyIsSpace l).filter (fun t => !t.isEmpty)

/-- Split on one fixed separator character, keeping empty fields
(Python `str.split(sep)`). -/
def splitSep (sep : Char) (l : Str) : List Str :=
  splitP (fun c => c == sep) l

/-- `tokenize` from the source: replace form feeds by a space, strip, and
split into whitespace-separated tokens. -/
def tokenize (line : Str) : List Str :=
  pySplit (pyStrip (line.map (fun c => if c = '\x0c' then ' ' else c)))

/-- Python `str.isdigit()` on the ASCII strings the program handles:
non-empty and all characters are decimal digits. -/
def isdigitStr (s : Str) : Bool :=
  !s.isEmpty && s.all Char.isDigit

/-- Python `list.index`: position of the first occurrence of `x`. -/
def pyIndex (x : Str) : List Str → Nat
  | [] => 0
  | y :: ys => if y = x then 0 else pyIndex x ys + 1

/-- One iteration of the `for tok in ("I", "S")` body of `find_marker_idx`:
if `tok` occurs, return its first index provided the next token is `"V"`. -/
def tryMarker (tok : Str) (parts2 : List Str) : Option Nat :=
  if tok ∈ parts2 then
    let idx := pyIndex tok parts2
    if idx + 1 < parts2.length ∧ parts2.getD (idx + 1) [] = cs "V" then some idx
    else none
  else none

/-- `find_marker_idx` from the source: try `"I"`, then `"S"`; each candidate
qualifies only when the following token is `"V"`; a candidate that fails
falls through to the next one. -/
def find_marker_idx (parts2 : List Str) : Option Nat :=
  match tryMarker (cs "I") parts2 with
  | some idx => some idx
  | none => tryMarker (cs "S") parts2

/-- Python `" ".join`. -/
def joinSpace : List Str → Str
  | [] => []
  | [t] => t
  | t :: rest => t ++ ' ' :: joinSpace rest

/-- Python `x or default` for an optional string (`None` and the empty
string both fall back to the default). -/
def pyOrStrOpt (o : Option Str) (dflt : Str) : Str :=
  match o with
  | some s => if s = [] then dflt else s
  | none => dflt

/-- One raw record as assembled in the `entry = { ... }` dict of
`parse_one_text`, fields in source order. -/
structure Entry where
  line : Str
  dateRcvd : Str
  partPre : Str
  partBase : Str
  partSuffix : Str
  description : Str
  quantity : Str
  uom : Str
  unitPrice : Str
  totalPrice : Str
  tams : Str
  ticketNumber : Str
  additionalInfo : Str
  sourceDoc : Str
deriving DecidableEq

/-- The `entry = { ... }` construction of `parse_one_text`, given the
header tokens `parts1`, detail tokens `parts2` and marker index.
Negative Python indices `parts1[-k]` become `parts1.getD (length - k)`. -/
def mkEntry (dateRcvd : Str) (docNo : Option Str) (parts1 parts2 : List Str)
    (markerIdx : Nat) : Entry :=
  let tamsIdx := markerIdx + 2
  { line := parts1.getD 0 []
    dateRcvd := dateRcvd
    partPre := parts1.getD 1 []
    partBase := parts1.getD 2 []
    partSuffix := parts1.getD 3 []
    description := joinSpace ((parts2.drop 1).take (markerIdx - 1))
    quantity := parts1.getD (parts1.length - 4) []
    uom := parts1.getD (parts1.length - 3) []
    unitPrice := parts1.getD (parts1.length - 2) []
    totalPrice := parts1.getD (parts1.length - 1) []
    tams := if tamsIdx < parts2.length then parts2.getD tamsIdx [] else []
    ticketNumber := parts2.getD 0 []
    additionalInfo := ((parts2.drop (tamsIdx + 1)).filter (fun t => t != cs ".")).getLastD []
    sourceDoc := pyOrStrOpt docNo [] }

/-- One iteration of the while loop of `parse_one_text`: at cursor `i`
either emit a record and advance by two, or emit nothing and advance by
one, exactly as the source does. -/
def scanStep (dateRcvd : Str) (docNo : Option Str) (lines : List Str) (i : Nat) :
    Option Entry × Nat :=
  if tokenize (lines.getD i []) ≠ [] ∧
      isdigitStr ((tokenize (lines.getD i [])).getD 0 []) then
    if i + 1 < lines.length then
      if 8 ≤ (tokenize (lines.getD i [])).length ∧
          5 ≤ (tokenize (lines.getD (i + 1) [])).length ∧
          isdigitStr ((tokenize (lines.getD (i + 1) [])).getD 0 []) then
        match find_marker_idx (tokenize (lines.getD (i + 1) [])) with
        | some m =>
          (some (mkEntry dateRcvd docNo (tokenize (lines.getD i []))
            (tokenize (lines.getD (i + 1) [])) m), 2)
        | none => (none, 1)
      else (none, 1)
    else (none, 1)
  else (none, 1)

/-- The while loop of `parse_one_text`, fuelled: while `i < length - 1`,
run one `scanStep` and advance the cursor by the step's advance.  A fuel
of at least `length - i` is always enough (proved below), and the program
always runs it with that much fuel. -/
def scanAux (dateRcvd : Str) (docNo : Option Str) (lines : List Str) :
    Nat → Nat → List Entry
  | 0, _ => []
  | fuel + 1, i =>
    if i < lines.length - 1 then
      let s := scanStep dateRcvd docNo lines i
      (match s.1 with
       | some e => [e]
       | none => []) ++ scanAux dateRcvd docNo lines fuel (i + s.2)
    else []

/-- The full scan of `parse_one_text` starting at cursor `i`. -/
def scanFrom (dateRcvd : Str) (docNo : Option Str) (lines : List Str) (i : Nat) :
    List Entry :=
  scanAux dateRcvd docNo lines (lines.length - i) i

/-- Line-break characters of Python `str.splitlines` (ASCII and Unicode). -/
def isLineBreak (c : Char) : Bool :=
  c == '\n' || c == '\r' || c == '\x0b' || c == '\x0c' ||
  c == '\x1c' || c == '\x1d' || c == '\x1e' || c == '\x85' ||
  c == '\u2028' || c == '\u2029'

/-- Worker for `str.splitlines`: accumulate the current line (reversed);
`\r\n` counts as a single break; no trailing empty line is produced. -/
def splitLinesGo : Str → Str → List Str
  | [], acc => if acc.isEmpty then [] else [acc.reverse]
  | '\r' :: '\n' :: rest, acc => acc.reverse :: splitLinesGo rest []
  | c :: rest, acc =>
    if isLineBreak c then acc.reverse :: splitLinesGo rest []
    else splitLinesGo rest (c :: acc)

/-- Python `str.splitlines()`. -/
def splitLinesPy (txt : Str) : List Str := splitLinesGo txt []

/-- The `cleaned_lines` list of `parse_one_text`: keep the non-blank lines,
stripped, with form feeds deleted. -/
def cleanedLines (txt : Str) : List Str :=
  ((splitLinesPy txt).filter (fun ln => !(pyStrip ln).isEmpty)).map
    (fun ln => (pyStrip ln).filter (fun c => c != '\x0c'))

/-- Case-insensitive literal matcher (regex `re.IGNORECASE` on an ASCII
literal written here in lowercase): on success return the rest of the
input. -/
def matchCaseless : Str → Str → Option Str
  | [], rest => some rest
  | _ :: _, [] => none
  | p :: ps, c :: rest => if c.toLower = p then matchCaseless ps rest else none

/-- Regex `\s+`: at least one whitespace character, consumed greedily. -/
def matchWs1 : Str → Option Str
  | [] => none
  | c :: rest => if pyIsSpace c then some (rest.dropWhile pyIsSpace) else none

/-- Characters of the identifier class `[A-Za-z0-9\-_/]` in
`extract_shipping_doc_number`. -/
def isIdentSlash (c : Char) : Bool :=
  c.isAlpha || c.isDigit || c == '-' || c == '_' || c == '/'

/-- Attempt the pattern `Shipping\s+Document\s+No:\s*([A-Za-z0-9\-_/]+)`
at the start of `l`, returning the capture group. -/
def matchShipAt (l : Str) : Option Str := do
  let r1 ← matchCaseless (cs "shipping") l
  let r2 ← matchWs1 r1
  let r3 ← matchCaseless (cs "document") r2
  let r4 ← matchWs1 r3
  let r5 ← matchCaseless (cs "no:") r4
  let r6 := r5.dropWhile pyIsSpace
  let g := r6.takeWhile isIdentSlash
  if g.isEmpty then none else some g

/-- `re.search`: try the position matcher at every start position, leftmost
match wins. -/
def reSearch {α : Type} (f : Str → Option α) : Str → Option α
  | [] => f []
  | c :: rest =>
    match f (c :: rest) with
    | some r => some r
    | none => reSearch f (c :: rest).tail

/-- `extract_shipping_doc_number`: search for the label, then replace every
character outside `[A-Za-z0-9\-_]` by an underscore; an empty result (and
a missing match) become `None`. -/
def extract_shipping_doc_number (txt : Str) : Option Str :=
  match reSearch matchShipAt txt with
  | none => none
  | some g =>
    let san := (pyStrip g).map
      (fun c => if c.isAlpha || c.isDigit || c == '-' || c == '_' then c else '_')
    if san = [] then none else some san

/-- Exactly `n` decimal digits (regex `[0-9]{n}`), returning the digits and
the rest of the input. -/
def matchDigits (n : Nat) (l : Str) : Option (Str × Str) :=
  if (l.take n).length = n ∧ (l.take n).all Char.isDigit then some (l.take n, l.drop n)
  else none

/-- Regex character class of one slash or dash (the separator class of the
date regexes). -/
def matchSepSD : Str → Option (Char × Str)
  | [] => none
  | c :: rest => if c = '/' ∨ c = '-' then some (c, rest) else none

/-- The date capture group of the two extraction regexes: either four
digits, a slash-or-dash, two digits, a slash-or-dash, two digits; or two
digits, slash, two digits, slash, four digits.  The first alternative is
tried first, and the matched text is returned. -/
def matchDateAlt (l : Str) : Option Str :=
  match
    (do
      let (a, r1) ← matchDigits 4 l
      let (s1, r2) ← matchSepSD r1
      let (b, r3) ← matchDigits 2 r2
      let (s2, r4) ← matchSepSD r3
      let (c2, _) ← matchDigits 2 r4
      some (a ++ s1 :: b ++ s2 :: c2)) with
  | some g => some g
  | none => do
    let (a, r1) ← matchDigits 2 l
    let (s1, r2) ← matchSepSD r1
    let _ ← if s1 = '/' then some () else none
    let (b, r3) ← matchDigits 2 r2
    let (s2, r4) ← matchSepSD r3
    let _ ← if s2 = '/' then some () else none
    let (c2, _) ← matchDigits 4 r4
    some (a ++ '/' :: b ++ '/' :: c2)

/-- Pattern `Received\s+Date:\s*(<date>)` at the current position. -/
def matchRecvAt (l : Str) : Option Str := do
  let r1 ← matchCaseless (cs "received") l
  let r2 ← matchWs1 r1
  let r3 ← matchCaseless (cs "date:") r2
  matchDateAlt (r3.dropWhile pyIsSpace)

/-- Pattern `Date\s+Created:\s*(<date>)` at the current position. -/
def matchCreatedAt (l : Str) : Option Str := do
  let r1 ← matchCaseless (cs "date") l
  let r2 ← matchWs1 r1
  let r3 ← matchCaseless (cs "created:") r2
  matchDateAlt (r3.dropWhile pyIsSpace)

/-- Numeric value of a decimal digit character. -/
def charVal (c : Char) : Nat := c.toNat - 48

/-- Value of a digit string, most significant first. -/
def natOfDigits (l : Str) : Nat := l.foldl (fun a c => 10 * a + charVal c) 0

/-- The `%Y` field of CPython `strptime`: exactly four digits. -/
def yearField (s : Str) : Option Nat :=
  if s.length = 4 ∧ s.all Char.isDigit then some (natOfDigits s) else none

/-- The `%m` field of CPython `strptime`: one or two digits, value 1-12. -/
def monthField (s : Str) : Option Nat :=
  if (s.length = 1 ∨ s.length = 2) ∧ s.all Char.isDigit ∧
      1 ≤ natOfDigits s ∧ natOfDigits s ≤ 12 then some (natOfDigits s)
  else none

/-- The `%d` field of CPython `strptime`: one or two digits, value 1-31. -/
def dayField (s : Str) : Option Nat :=
  if (s.length = 1 ∨ s.length = 2) ∧ s.all Char.isDigit ∧
      1 ≤ natOfDigits s ∧ natOfDigits s ≤ 31 then some (natOfDigits s)
  else none

/-- Gregorian leap year, as in Python `datetime`. -/
def isLeap (y : Nat) : Bool :=
  (y % 4 == 0 && y % 100 != 0) || y % 400 == 0

/-- Days in a month, as validated by the `datetime` constructor. -/
def daysInMonth (y m : Nat) : Nat :=
  if m = 2 then (if isLeap y then 29 else 28)
  else if m = 4 ∨ m = 6 ∨ m = 9 ∨ m = 11 then 30
  else 31

/-- The validation performed by the `datetime` constructor
(`MINYEAR = 1`, `MAXYEAR = 9999`, day within the month). -/
def mkValidated (y m d : Nat) : Option (Nat × Nat × Nat) :=
  if 1 ≤ y ∧ y ≤ 9999 ∧ 1 ≤ m ∧ m ≤ 12 ∧ 1 ≤ d ∧ d ≤ daysInMonth y m then
    some (y, m, d)
  else none

/-- `strptime` with format `%Y<sep>%m<sep>%d` (the fields are separated in
every accepted format, so field-wise splitting is equivalent to the
regex-based CPython matcher). -/
def parseYMD (sep : Char) (s : Str) : Option (Nat × Nat × Nat) :=
  match splitSep sep s with
  | [a, b, c] =>
    (yearField a).bind fun y =>
      (monthField b).bind fun m =>
        (dayField c).bind fun d => mkValidated y m d
  | _ => none

/-- `strptime` with format `%d/%m/%Y`. -/
def parseDMY (s : Str) : Option (Nat × Nat × Nat) :=
  match splitSep '/' s with
  | [a, b, c] =>
    (dayField a).bind fun d =>
      (monthField b).bind fun m =>
        (yearField c).bind fun y => mkValidated y m d
  | _ => none

/-- `strptime` with format `%m/%d/%Y`. -/
def parseMDY (s : Str) : Option (Nat × Nat × Nat) :=
  match splitSep '/' s with
  | [a, b, c] =>
    (monthField a).bind fun m =>
      (dayField b).bind fun d =>
        (yearField c).bind fun y => mkValidated y m d
  | _ => none

/-- Two-digit zero-padded decimal rendering (`strftime` `%m`, `%d`). -/
def pad2 (n : Nat) : Str :=
  [Char.ofNat (48 + n / 10 % 10), Char.ofNat (48 + n % 10)]

/-- Four-digit decimal rendering of a year (`strftime` `%Y` for the
four-digit years the program's regexes admit). -/
def pad4 (y : Nat) : Str :=
  [Char.ofNat (48 + y / 1000 % 10), Char.ofNat (48 + y / 100 % 10),
   Char.ofNat (48 + y / 10 % 10), Char.ofNat (48 + y % 10)]

/-- `strftime("%Y-%m-%d")`. -/
def isoFmt : Nat × Nat × Nat → Str
  | (y, m, d) => pad4 y ++ '-' :: (pad2 m ++ '-' :: pad2 d)

/-- `normalize_date_str` from the source: strip, then try the formats
`%Y/%m/%d`, `%Y-%m-%d`, `%d/%m/%Y`, `%m/%d/%Y` in this order, rendering
the first successful parse as `YYYY-MM-DD`. -/
def normalize_date_str (s0 : Str) : Option Str :=
  match parseYMD '/' (pyStrip s0) with
  | some t => some (isoFmt t)
  | none =>
    match parseYMD '-' (pyStrip s0) with
    | some t => some (isoFmt t)
    | none =>
      match parseDMY (pyStrip s0) with
      | some t => some (isoFmt t)
      | none =>
        match parseMDY (pyStrip s0) with
        | some t => some (isoFmt t)
        | none => none

/-- `extract_received_or_created_date`: a "Received Date:" match that
normalizes wins; otherwise a "Date Created:" match that normalizes;
otherwise today's date (`date.today()` is modelled by the `today`
parameter). -/
def extract_received_or_created_date (today txt : Str) : Str :=
  match (reSearch matchRecvAt txt).bind normalize_date_str with
  | some d => d
  | none =>
    match (reSearch matchCreatedAt txt).bind normalize_date_str with
    | some d => d
    | none => today

/-- The metadata dict returned by `parse_one_text`. -/
structure Meta where
  docNo : Option Str
  dateRcvd : Str
deriving DecidableEq

/-- `parse_one_text`: clean the lines, extract the metadata once, then run
the sliding two-line scan.  Returns the raw entry list and the metadata. -/
def parse_one_text (today txt : Str) (overrideDate : Option Str) :
    List Entry × Meta :=
  let cleaned := cleanedLines txt
  let docNo := extract_shipping_doc_number txt
  let dateRcvd := pyOrStrOpt overrideDate (extract_received_or_created_date today txt)
  (scanFrom dateRcvd docNo cleaned 0, ⟨docNo, dateRcvd⟩)

/-- Mantissa scanner of the numeric coercion: digits, an optional decimal
point, more digits; returns the integer value of all mantissa digits, the
number of fractional digits, and the rest of the input.  Fails unless at
least one digit is present. -/
def scanMantissa (l : Str) : Option (Nat × Nat × Str) :=
  let ip := l.takeWhile Char.isDigit
  let r1 := l.dropWhile Char.isDigit
  match r1 with
  | '.' :: r2 =>
    let fp := r2.takeWhile Char.isDigit
    if ip.isEmpty ∧ fp.isEmpty then none
    else some (natOfDigits (ip ++ fp), fp.length, r2.dropWhile Char.isDigit)
  | _ => if ip.isEmpty then none else some (natOfDigits ip, 0, r1)

/-- Optional exponent part (`e` or `E`, optional sign, at least one
digit); returns the signed exponent and the rest. -/
def scanExponent (l : Str) : Option (Int × Str) :=
  match l with
  | 'e' :: r | 'E' :: r =>
    match r with
    | '+' :: r2 =>
      let ds := r2.takeWhile Char.isDigit
      if ds.isEmpty then none else some ((natOfDigits ds : Int), r2.dropWhile Char.isDigit)
    | '-' :: r2 =>
      let ds := r2.takeWhile Char.isDigit
      if ds.isEmpty then none else some (-(natOfDigits ds : Int), r2.dropWhile Char.isDigit)
    | _ =>
      let ds := r.takeWhile Char.isDigit
      if ds.isEmpty then none else some ((natOfDigits ds : Int), r.dropWhile Char.isDigit)
  | _ => some (0, l)

/-- Build the rational `sgn * mant * 10 ^ (ex - fracLen)` out of the
scanned pieces, as a single normalized fraction. -/
def decValue (neg : Bool) (mant : Nat) (fracLen : Nat) (ex : Int) : ℚ :=
  let sgn : Int := if neg then -1 else 1
  let p : Int := ex - (fracLen : Int)
  if 0 ≤ p then mkRat (sgn * mant * 10 ^ p.toNat) 1
  else mkRat (sgn * mant) (10 ^ (-p).toNat)

/-- The numeric string grammar accepted by `pd.to_numeric` on the decimal
and scientific literals these reports contain: optional surrounding
whitespace, optional sign, mantissa, optional exponent, end of string
(special spellings such as infinities are outside the inputs this
program's records can carry and are not modelled). -/
def parseNumLit (l0 : Str) : Option ℚ :=
  let l := pyStrip l0
  let (neg, l1) :=
    match l with
    | '-' :: r => (true, r)
    | '+' :: r => (false, r)
    | _ => (false, l)
  match scanMantissa l1 with
  | none => none
  | some (mant, fracLen, r2) =>
    match scanExponent r2 with
    | none => none
    | some (ex, r3) =>
      if r3.isEmpty then some (decValue neg mant fracLen ex) else none

/-- `pd.to_numeric(column, errors="coerce")` applied to one cell: a parsed
number, or the missing-value marker `none` (pandas `NaN`) when the cell is
not numeric.  It never raises. -/
def to_numeric_coerce (s : Str) : Option ℚ := parseNumLit s

/-- One row of the final assembled set, after the numeric coercion of
Quantity, Unit Price and Total Price. -/
structure FinalRecord where
  line : Str
  dateRcvd : Str
  partPre : Str
  partBase : Str
  partSuffix : Str
  description : Str
  quantity : Option ℚ
  uom : Str
  unitPrice : Option ℚ
  totalPrice : Option ℚ
  tams : Str
  ticketNumber : Str
  additionalInfo : Str
  sourceDoc : Str
deriving DecidableEq

/-- The per-row effect of the numeric coercion block of `parse_one_text`. -/
def coerceEntry (e : Entry) : FinalRecord :=
  { line := e.line
    dateRcvd := e.dateRcvd
    partPre := e.partPre
    partBase := e.partBase
    partSuffix := e.partSuffix
    description := e.description
    quantity := to_numeric_coerce e.quantity
    uom := e.uom
    unitPrice := to_numeric_coerce e.unitPrice
    totalPrice := to_numeric_coerce e.totalPrice
    tams := e.tams
    ticketNumber := e.ticketNumber
    additionalInfo := e.additionalInfo
    sourceDoc := e.sourceDoc }

/-- The record set after the coercion block (a no-op on an empty set, as in
the source where the block is guarded by `not df.empty`). -/
def assembled (es : List Entry) : List FinalRecord := es.map coerceEntry

/-- The fourteen column names in the insertion order of the `entry` dict. -/
def initialCols : List Str :=
  [cs "Line", cs "Date Rcvd", cs "Part Prefix", cs "Part Base",
   cs "Part Suffix", cs "Description", cs "Quantity", cs "UOM",
   cs "Unit Price ($)", cs "Total Price", cs "TAMS", cs "Ticket Number",
   cs "Additional Info", cs "Source Doc"]

/-- The column reorder of `parse_one_text`: remove "Additional Info" and
"Ticket Number", then append "Ticket Number" and "Additional Info". -/
def reorderCols (cols : List Str) : List Str :=
  ((cols.erase (cs "Additional Info")).erase (cs "Ticket Number")) ++
    [cs "Ticket Number", cs "Additional Info"]

/-- Columns of the assembled set: the reordered fourteen when at least one
record was parsed; a `pd.DataFrame([])` with no columns otherwise. -/
def finalColumns (es : List Entry) : List Str :=
  if es.isEmpty then [] else reorderCols initialCols

/-- A byte of an uploaded file. -/
abbrev Byte := Fin 256

/-- Is `b` a UTF-8 continuation byte? -/
def isCont (b : Byte) : Bool := 128 ≤ b.val && b.val ≤ 191

/-- Strict UTF-8 decoding to code points, as Python `bytes.decode("utf-8")`:
rejects stray continuation bytes, overlong forms, surrogates and values
above `U+10FFFF`; `none` models `UnicodeDecodeError`. -/
def utf8Decode : List Byte → Option (List Nat)
  | [] => some []
  | b :: bs =>
    let n := b.val
    if n ≤ 127 then (utf8Decode bs).map (fun t => n :: t)
    else if 194 ≤ n ∧ n ≤ 223 then
      match bs with
      | b2 :: bs2 =>
        if isCont b2 then
          (utf8Decode bs2).map (fun t => ((n - 192) * 64 + (b2.val - 128)) :: t)
        else none
      | [] => none
    else if 224 ≤ n ∧ n ≤ 239 then
      match bs with
      | b2 :: b3 :: bs2 =>
        let okB2 : Bool :=
          if n = 224 then 160 ≤ b2.val && b2.val ≤ 191
          else if n = 237 then 128 ≤ b2.val && b2.val ≤ 159
          else isCont b2
        if okB2 && isCont b3 then
          (utf8Decode bs2).map
            (fun t => ((n - 224) * 4096 + (b2.val - 128) * 64 + (b3.val - 128)) :: t)
        else none
      | _ => none
    else if 240 ≤ n ∧ n ≤ 244 then
      match bs with
      | b2 :: b3 :: b4 :: bs2 =>
        let okB2 : Bool :=
          if n = 240 then 144 ≤ b2.val && b2.val ≤ 191
          else if n = 244 then 128 ≤ b2.val && b2.val ≤ 143
          else isCont b2
        if okB2 && isCont b3 && isCont b4 then
          (utf8Decode bs2).map
            (fun t => ((n - 240) * 262144 + (b2.val - 128) * 4096 +
                       (b3.val - 128) * 64 + (b4.val - 128)) :: t)
        else none
      | _ => none
    else none

/-- Python `bytes.decode("utf-8-sig")`: strip one byte-order mark if
present, then decode as UTF-8. -/
def utf8SigDecode (raw : List Byte) : Option (List Nat) :=
  if raw.take 3 = [(239 : Byte), (187 : Byte), (191 : Byte)] then
    utf8Decode (raw.drop 3)
  else utf8Decode raw

/-- Python `bytes.decode("latin-1")`: every byte is its own code point;
total by construction. -/
def latin1Decode (raw : List Byte) : List Nat := raw.map (fun b => b.val)

/-- The decoding loop of the main flow: try `utf-8-sig`, then `utf-8`,
then `latin-1`; the first success is the decoded text.  `none` would model
the case where every tier raises, which the theorem below shows cannot
happen. -/
def decodeChain (raw : List Byte) : Option (List Nat) :=
  match utf8SigDecode raw with
  | some t => some t
  | none =>
    match utf8Decode raw with
    | some t => some t
    | none => some (latin1Decode raw)

/-!
Spec-side definitions and concrete documents used by the claim theorems.
-/

/-- A fixed run date standing for `date.today()` in concrete evaluations. -/
def exampleToday : Str := cs "2026-10-12"

/-- The end-to-end scenario 1 document exactly as the specification words
it: the header line followed by the detail line with ticket `T987`. -/
def exampleDocClaimed : Str :=
  cs "12 AB 1234 C 10 EA 5.00 50.00\nT987 Widget kit I V TAMS1 . X"

/-- The scenario 1 document with the detail ticket token made purely
numeric (`987`), which the acceptance rule requires. -/
def exampleDocAccepted : Str :=
  cs "12 AB 1234 C 10 EA 5.00 50.00\n987 Widget kit I V TAMS1 . X"

/-- The raw entry the parser produces from `exampleDocAccepted`. -/
def exampleEntry : Entry :=
  { line := cs "12"
    dateRcvd := exampleToday
    partPre := cs "AB"
    partBase := cs "1234"
    partSuffix := cs "C"
    description := cs "Widget kit"
    quantity := cs "10"
    uom := cs "EA"
    unitPrice := cs "5.00"
    totalPrice := cs "50.00"
    tams := cs "TAMS1"
    ticketNumber := cs "987"
    additionalInfo := cs "X"
    sourceDoc := [] }

/-- The final assembled record from `exampleDocAccepted` after numeric
coercion. -/
def exampleRecord : FinalRecord :=
  { line := cs "12"
    dateRcvd := exampleToday
    partPre := cs "AB"
    partBase := cs "1234"
    partSuffix := cs "C"
    description := cs "Widget kit"
    quantity := some 10
    uom := cs "EA"
    unitPrice := some 5
    totalPrice := some 50
    tams := cs "TAMS1"
    ticketNumber := cs "987"
    additionalInfo := cs "X"
    sourceDoc := [] }

/-- The Marker Locator as claim C2 words it: the first occurrence of "I"
qualifies when followed by "V"; "S" is considered only when "I" is absent
from the list; in every other case there is no marker. -/
def markerSpecClaimed (l : List Str) : Option Nat :=
  if cs "I" ∈ l then
    if pyIndex (cs "I") l + 1 < l.length ∧ l.getD (pyIndex (cs "I") l + 1) [] = cs "V" then
      some (pyIndex (cs "I") l)
    else none
  else if cs "S" ∈ l then
    if pyIndex (cs "S") l + 1 < l.length ∧ l.getD (pyIndex (cs "S") l + 1) [] = cs "V" then
      some (pyIndex (cs "S") l)
    else none
  else none

/-- The Marker Locator as the amended claim words it: the first occurrence
of "I" when immediately followed by "V"; otherwise the first occurrence of
"S" when immediately followed by "V" (whether or not "I" occurs);
otherwise no marker. -/
def markerSpecAmended (l : List Str) : Option Nat :=
  if cs "I" ∈ l ∧ pyIndex (cs "I") l + 1 < l.length ∧
      l.getD (pyIndex (cs "I") l + 1) [] = cs "V" then
    some (pyIndex (cs "I") l)
  else if cs "S" ∈ l ∧ pyIndex (cs "S") l + 1 < l.length ∧
      l.getD (pyIndex (cs "S") l + 1) [] = cs "V" then
    some (pyIndex (cs "S") l)
  else none

/-- The fourteen-column order claimed in section 6 of the specification,
with Source Doc last. -/
def specColumnOrder : List Str :=
  [cs "Line", cs "Date Rcvd", cs "Part Prefix", cs "Part Base",
   cs "Part Suffix", cs "Description", cs "Quantity", cs "UOM",
   cs "Unit Price ($)", cs "Total Price", cs "TAMS", cs "Ticket Number",
   cs "Additional Info", cs "Source Doc"]

/-!
Claim theorems.
-/

/-- C1, counterexample: on the document whose cleaned lines are exactly the
header line `12 AB 1234 C 10 EA 5.00 50.00` followed by the detail line
`T987 Widget kit I V TAMS1 . X`, the parser emits no record at all — the
detail ticket token `T987` fails the purely-digits acceptance check — so in
particular it does not emit the record the claim describes. -/
theorem C1_counterexample :
    (parse_one_text exampleToday exampleDocClaimed none).1 = [] := by decide

/-- C1, amended: with the detail ticket token made purely numeric (`987`),
the header/detail pair is accepted and the assembled set is exactly one
record with Line "12", Part Prefix "AB", Part Base "1234", Part Suffix "C",
Quantity 10, UOM "EA", Unit Price 5.00, Total Price 50.00, Description
"Widget kit", TAMS "TAMS1", Ticket Number "987" and Additional Info "X". -/
theorem C1_amended_record :
    assembled (parse_one_text exampleToday exampleDocAccepted none).1 =
      [exampleRecord] := by decide

/-- C2, counterexample: on the token list `["I", "X", "S", "V"]` the token
"I" is present but its first occurrence is not followed by "V"; the claim
says no marker is returned, yet `find_marker_idx` falls through to "S" and
returns index 2. -/
theorem C2_counterexample :
    find_marker_idx [cs "I", cs "X", cs "S", cs "V"] = some 2 ∧
      markerSpecClaimed [cs "I", cs "X", cs "S", cs "V"] = none := by decide

/-- Characterization of one candidate-check iteration of
`find_marker_idx`: it succeeds exactly when the token occurs and its first
occurrence is immediately followed by "V". -/
lemma tryMarker_iff (tok : Str) (l : List Str) :
    tryMarker tok l =
      if tok ∈ l ∧ pyIndex tok l + 1 < l.length ∧
          l.getD (pyIndex tok l + 1) [] = cs "V" then
        some (pyIndex tok l)
      else none := by
  unfold tryMarker
  by_cases h1 : tok ∈ l
  · by_cases h2 : pyIndex tok l + 1 < l.length ∧ l.getD (pyIndex tok l + 1) [] = cs "V"
    · rw [if_pos h1, if_pos h2, if_pos ⟨h1, h2⟩]
    · have hn : ¬(tok ∈ l ∧ pyIndex tok l + 1 < l.length ∧
          l.getD (pyIndex tok l + 1) [] = cs "V") := fun h => h2 h.2
      rw [if_pos h1, if_neg h2, if_neg hn]
  · have hn : ¬(tok ∈ l ∧ pyIndex tok l + 1 < l.length ∧
        l.getD (pyIndex tok l + 1) [] = cs "V") := fun h => h1 h.1
    rw [if_neg h1, if_neg hn]

/-- C2, amended: the Marker Locator returns the index of the first
occurrence of "I" when that occurrence is immediately followed by "V";
otherwise it returns the index of the first occurrence of "S" when that
occurrence is immediately followed by "V", whether or not "I" occurs in
the list; and it returns no marker only when neither candidate
qualifies. -/
theorem C2_amended :
    ∀ l : List Str, find_marker_idx l = markerSpecAmended l := by
  intro l
  unfold find_marker_idx markerSpecAmended
  rw [tryMarker_iff, tryMarker_iff]
  by_cases hA : cs "I" ∈ l ∧ pyIndex (cs "I") l + 1 < l.length ∧
      l.getD (pyIndex (cs "I") l + 1) [] = cs "V"
  · rw [if_pos hA, if_pos hA]
  · rw [if_neg hA, if_neg hA]

/-- C3, counterexample: `exampleDocAccepted` is a non-empty input whose
assembled record set is non-empty, and its column list is not the
section-6 order (Source Doc is not last). -/
theorem C3_counterexample :
    (parse_one_text exampleToday exampleDocAccepted none).1 ≠ [] ∧
      finalColumns (parse_one_text exampleToday exampleDocAccepted none).1 ≠
        specColumnOrder := by decide

/-- C3, amended: for every input that yields at least one record, the
assembled set has exactly the fourteen columns, in the order Line, Date
Rcvd, Part Prefix, Part Base, Part Suffix, Description, Quantity, UOM,
Unit Price ($), Total Price, TAMS, Source Doc, Ticket Number, Additional
Info — Source Doc precedes the final two columns Ticket Number and
Additional Info.  (An input yielding no records produces an empty,
column-less set.) -/
theorem C3_amended :
    ∀ today txt : Str, ∀ od : Option Str,
      (parse_one_text today txt od).1 ≠ [] →
      finalColumns (parse_one_text today txt od).1 =
        [cs "Line", cs "Date Rcvd", cs "Part Prefix", cs "Part Base",
         cs "Part Suffix", cs "Description", cs "Quantity", cs "UOM",
         cs "Unit Price ($)", cs "Total Price", cs "TAMS", cs "Source Doc",
         cs "Ticket Number", cs "Additional Info"] := by
  intro today txt od h
  have he : ((parse_one_text today txt od).1).isEmpty = false := by
    cases hx : (parse_one_text today txt od).1
    · exact absurd hx h
    · simp
  simp only [finalColumns, he, Bool.false_eq_true, if_false]
  decide

/-- Witness for C3: the amended column order holds at the concrete
accepted document. -/
theorem C3_witness :
    finalColumns (parse_one_text exampleToday exampleDocAccepted none).1 =
      [cs "Line", cs "Date Rcvd", cs "Part Prefix", cs "Part Base",
       cs "Part Suffix", cs "Description", cs "Quantity", cs "UOM",
       cs "Unit Price ($)", cs "Total Price", cs "TAMS", cs "Source Doc",
       cs "Ticket Number", cs "Additional Info"] :=
  C3_amended exampleToday exampleDocAccepted none (by decide)

/-- C10: the three-tier decoding chain (utf-8-sig, utf-8, latin-1) succeeds
on every byte sequence, because the latin-1 tier is total; the per-document
decoding-failure case is unreachable and every upload yields decoded
text. -/
theorem C10_decode :
    ∀ raw : List Byte, ∃ t, decodeChain raw = some t := by
  intro raw
  unfold decodeChain
  cases h1 : utf8SigDecode raw with
  | some t => exact ⟨t, rfl⟩
  | none =>
    cases h2 : utf8Decode raw with
    | some t => exact ⟨t, rfl⟩
    | none => exact ⟨latin1Decode raw, rfl⟩

/-- Case analysis of one scan iteration: either a record is emitted (the
marker was found on the detail tokens and all acceptance checks passed)
and the advance is two, or nothing is emitted and the advance is one. -/
lemma scanStep_cases (dt : Str) (dn : Option Str) (lines : List Str) (i : Nat) :
    (∃ m, find_marker_idx (tokenize (lines.getD (i + 1) [])) = some m ∧
      scanStep dt dn lines i =
        (some (mkEntry dt dn (tokenize (lines.getD i []))
          (tokenize (lines.getD (i + 1) [])) m), 2)) ∨
    scanStep dt dn lines i = (none, 1) := by
  unfold scanStep
  by_cases c1 : tokenize (lines.getD i []) ≠ [] ∧
      isdigitStr ((tokenize (lines.getD i [])).getD 0 [])
  · rw [if_pos c1]
    by_cases c2 : i + 1 < lines.length
    · rw [if_pos c2]
      by_cases c3 : 8 ≤ (tokenize (lines.getD i [])).length ∧
          5 ≤ (tokenize (lines.getD (i + 1) [])).length ∧
          isdigitStr ((tokenize (lines.getD (i + 1) [])).getD 0 [])
      · rw [if_pos c3]
        rcases hm : find_marker_idx (tokenize (lines.getD (i + 1) [])) with _ | m
        · right; rfl
        · left; exact ⟨m, rfl, rfl⟩
      · rw [if_neg c3]; right; rfl
    · rw [if_neg c2]; right; rfl
  · rw [if_neg c1]; right; rfl

/-- C5: for every accepted header/detail pair, however the header tokens
decompose into a prefix followed by four final tokens, the record's
Quantity, UOM, Unit Price and Total Price are those final four tokens —
i.e. the tokens at positions n-4, n-3, n-2, n-1 of an n-token header,
independent of how many description tokens precede them. -/
theorem C5_last_four :
    ∀ (dt : Str) (dn : Option Str) (lines : List Str) (i : Nat) (e : Entry)
      (pre : List Str) (q u up tp : Str),
      (scanStep dt dn lines i).1 = some e →
      tokenize (lines.getD i []) = pre ++ [q, u, up, tp] →
      e.quantity = q ∧ e.uom = u ∧ e.unitPrice = up ∧ e.totalPrice = tp := by
  intro dt dn lines i e pre q u up tp hstep htok
  rcases scanStep_cases dt dn lines i with ⟨m, _, hs⟩ | hs
  · rw [hs] at hstep
    have he := Option.some.inj hstep
    subst he
    rw [htok]
    unfold mkEntry
    have hlen : (pre ++ [q, u, up, tp]).length = pre.length + 4 := by
      simp
    refine ⟨?_, ?_, ?_, ?_⟩ <;> simp only [hlen]
    · have hi : pre.length + 4 - 4 = pre.length := by omega
      rw [hi, List.getD_append_right pre [q, u, up, tp] [] pre.length (le_refl _),
        Nat.sub_self]
      rfl
    · have hi : pre.length + 4 - 3 = pre.length + 1 := by omega
      rw [hi, List.getD_append_right pre [q, u, up, tp] [] (pre.length + 1) (by omega),
        Nat.add_sub_cancel_left]
      rfl
    · have hi : pre.length + 4 - 2 = pre.length + 2 := by omega
      rw [hi, List.getD_append_right pre [q, u, up, tp] [] (pre.length + 2) (by omega),
        Nat.add_sub_cancel_left]
      rfl
    · have hi : pre.length + 4 - 1 = pre.length + 3 := by omega
      rw [hi, List.getD_append_right pre [q, u, up, tp] [] (pre.length + 3) (by omega),
        Nat.add_sub_cancel_left]
      rfl
  · rw [hs] at hstep
    exact absurd hstep (by simp)

/-- Witness for C5: on the accepted concrete document, the emitted entry's
four pricing fields are the header's last four tokens. -/
theorem C5_witness :
    exampleEntry.quantity = cs "10" ∧ exampleEntry.uom = cs "EA" ∧
      exampleEntry.unitPrice = cs "5.00" ∧ exampleEntry.totalPrice = cs "50.00" :=
  C5_last_four exampleToday none (cleanedLines exampleDocAccepted) 0 exampleEntry
    [cs "12", cs "AB", cs "1234", cs "C"] (cs "10") (cs "EA") (cs "5.00")
    (cs "50.00") (by decide) (by decide)

/-- C6: in every step of the scan, a line whose first token is not purely
digits is never consumed as part of a record (the step emits nothing and
advances the cursor by exactly one); whenever no record is emitted — in
particular when any acceptance condition fails, including a missing
qualifying marker — the cursor advances by exactly one, not two; and the
cursor advances by two exactly when a record is emitted. -/
theorem C6_cursor :
    ∀ (dt : Str) (dn : Option Str) (lines : List Str) (i : Nat),
      (¬(tokenize (lines.getD i []) ≠ [] ∧
          isdigitStr ((tokenize (lines.getD i [])).getD 0 [])) →
        scanStep dt dn lines i = (none, 1)) ∧
      ((scanStep dt dn lines i).1 = none → (scanStep dt dn lines i).2 = 1) ∧
      ((scanStep dt dn lines i).2 = 2 ↔ ((scanStep dt dn lines i).1).isSome = true) := by
  intro dt dn lines i
  refine ⟨?_, ?_, ?_⟩
  · intro h
    unfold scanStep
    rw [if_neg h]
  · intro h
    rcases scanStep_cases dt dn lines i with ⟨m, _, hs⟩ | hs
    · rw [hs] at h; exact absurd h (by simp)
    · rw [hs]
  · rcases scanStep_cases dt dn lines i with ⟨m, _, hs⟩ | hs <;> rw [hs] <;> simp

/-- Witness for C6: on a concrete line whose first token is not numeric,
the step emits nothing and advances by one. -/
theorem C6_witness :
    scanStep exampleToday none [cs "foo bar baz", cs "x y"] 0 = (none, 1) :=
  (C6_cursor exampleToday none [cs "foo bar baz", cs "x y"] 0).1 (by decide)

/-- C7: every record of the final assembled set carries, for each of
Quantity, Unit Price and Total Price, either a parsed number or the
missing-value marker — never a raw unparsed string; the coercion is a
total function, so it never raises. -/
theorem C7_numeric :
    ∀ (today txt : Str) (od : Option Str) (r : FinalRecord),
      r ∈ assembled (parse_one_text today txt od).1 →
      ((∃ q : ℚ, r.quantity = some q) ∨ r.quantity = none) ∧
      ((∃ q : ℚ, r.unitPrice = some q) ∨ r.unitPrice = none) ∧
      ((∃ q : ℚ, r.totalPrice = some q) ∨ r.totalPrice = none) := by
  intro today txt od r _
  refine ⟨?_, ?_, ?_⟩
  · cases h : r.quantity with
    | none => exact Or.inr rfl
    | some q => exact Or.inl ⟨q, rfl⟩
  · cases h : r.unitPrice with
    | none => exact Or.inr rfl
    | some q => exact Or.inl ⟨q, rfl⟩
  · cases h : r.totalPrice with
    | none => exact Or.inr rfl
    | some q => exact Or.inl ⟨q, rfl⟩

/-- Witness for C7: the concrete assembled record of the accepted document
satisfies the number-or-missing disjunctions. -/
theorem C7_witness :
    ((∃ q : ℚ, exampleRecord.quantity = some q) ∨ exampleRecord.quantity = none) ∧
    ((∃ q : ℚ, exampleRecord.unitPrice = some q) ∨ exampleRecord.unitPrice = none) ∧
    ((∃ q : ℚ, exampleRecord.totalPrice = some q) ∨ exampleRecord.totalPrice = none) :=
  C7_numeric exampleToday exampleDocAccepted none exampleRecord (by decide)

/-- Every entry any step emits carries the date and document identifier the
step was given. -/
lemma scanStep_fields (dt : Str) (dn : Option Str) (lines : List Str) (i : Nat)
    (e : Entry) (h : (scanStep dt dn lines i).1 = some e) :
    e.dateRcvd = dt ∧ e.sourceDoc = pyOrStrOpt dn [] := by
  rcases scanStep_cases dt dn lines i with ⟨m, _, hs⟩ | hs
  · rw [hs] at h
    have he := Option.some.inj h
    subst he
    exact ⟨rfl, rfl⟩
  · rw [hs] at h
    exact absurd h (by simp)

/-- Every entry of a fuelled scan carries the date and document identifier
the scan was given. -/
lemma scanAux_fields (dt : Str) (dn : Option Str) (lines : List Str) :
    ∀ (fuel i : Nat) (e : Entry), e ∈ scanAux dt dn lines fuel i →
      e.dateRcvd = dt ∧ e.sourceDoc = pyOrStrOpt dn [] := by
  intro fuel
  induction fuel with
  | zero => intro i e h; exact absurd h (by simp [scanAux])
  | succ f ih =>
    intro i e h
    rw [scanAux] at h
    by_cases hg : i < lines.length - 1
    · rw [if_pos hg] at h
      rcases List.mem_append.mp h with h1 | h2
      · rcases hs : (scanStep dt dn lines i).1 with _ | e2
        · rw [hs] at h1; exact absurd h1 (by simp)
        · rw [hs] at h1
          have : e = e2 := by simpa using h1
          subst this
          exact scanStep_fields dt dn lines i e hs
      · exact ih _ e h2
    · rw [if_neg hg] at h
      exact absurd h (by simp)

/-- C8: every record a single document conversion produces carries the
document's once-computed Date Rcvd (the operator override if given, else
the extracted received/created date, else the run date) and its
once-computed Source Doc — both uniform across all records of the
document. -/
theorem C8_uniform :
    ∀ (today txt : Str) (od : Option Str) (e : Entry),
      e ∈ (parse_one_text today txt od).1 →
      e.dateRcvd = pyOrStrOpt od (extract_received_or_created_date today txt) ∧
      e.sourceDoc = pyOrStrOpt (extract_shipping_doc_number txt) [] := by
  intro today txt od e h
  unfold parse_one_text scanFrom at h
  exact scanAux_fields _ _ _ _ _ _ h

/-- Witness for C8: the concrete document's single record carries the
fallback run date (no date label is present) and the empty source
identifier (no shipping-document label is present). -/
theorem C8_witness :
    exampleEntry.dateRcvd =
      pyOrStrOpt none (extract_received_or_created_date exampleToday exampleDocAccepted) ∧
    exampleEntry.sourceDoc =
      pyOrStrOpt (extract_shipping_doc_number exampleDocAccepted) [] :=
  C8_uniform exampleToday exampleDocAccepted none exampleEntry (by decide)

/-- Every scan step advances the cursor by one or by two. -/
lemma scanStep_adv (dt : Str) (dn : Option Str) (lines : List Str) (i : Nat) :
    (scanStep dt dn lines i).2 = 1 ∨ (scanStep dt dn lines i).2 = 2 := by
  rcases scanStep_cases dt dn lines i with ⟨m, _, hs⟩ | hs
  · rw [hs]; right; rfl
  · rw [hs]; left; rfl

/-- Fuel independence of the scan: any two fuels of at least one unit per
remaining line give the same result — the while loop terminates after at
most one advance per cleaned line. -/
lemma scanAux_congr (dt : Str) (dn : Option Str) (lines : List Str) :
    ∀ (f1 f2 i : Nat), lines.length - i ≤ f1 → lines.length - i ≤ f2 →
      scanAux dt dn lines f1 i = scanAux dt dn lines f2 i := by
  intro f1
  induction f1 using Nat.strong_induction_on with
  | _ f1 ih =>
    intro f2 i h1 h2
    cases f1 with
    | zero =>
      cases f2 with
      | zero => rfl
      | succ g2 =>
        have hg : ¬ i < lines.length - 1 := by omega
        simp only [scanAux]
        rw [if_neg hg]
    | succ g1 =>
      cases f2 with
      | zero =>
        have hg : ¬ i < lines.length - 1 := by omega
        simp only [scanAux]
        rw [if_neg hg]
      | succ g2 =>
        by_cases hg : i < lines.length - 1
        · simp only [scanAux]
          rw [if_pos hg, if_pos hg]
          have hadv := scanStep_adv dt dn lines i
          have hb1 : lines.length - (i + (scanStep dt dn lines i).2) ≤ g1 := by
            rcases hadv with h | h <;> omega
          have hb2 : lines.length - (i + (scanStep dt dn lines i).2) ≤ g2 := by
            rcases hadv with h | h <;> omega
          exact congrArg _ (ih g1 (by omega) g2 _ hb1 hb2)
        · simp only [scanAux]
          rw [if_neg hg, if_neg hg]

/-- When no step anywhere in the document can emit a record, the scan
returns the empty record set (rather than failing). -/
lemma scanAux_none (dt : Str) (dn : Option Str) (lines : List Str)
    (h : ∀ j, j < lines.length → (scanStep dt dn lines j).1 = none) :
    ∀ (fuel i : Nat), scanAux dt dn lines fuel i = [] := by
  intro fuel
  induction fuel with
  | zero => intro i; rfl
  | succ f ih =>
    intro i
    rw [scanAux]
    by_cases hg : i < lines.length - 1
    · rw [if_pos hg]
      have hj : (scanStep dt dn lines i).1 = none := h i (by omega)
      simp [hj, ih]
    · rw [if_neg hg]

/-- C9: the parser's scan always terminates and never raises — every loop
iteration advances the cursor by one or by two, any fuel of one unit per
remaining cleaned line is enough (so the scan completes after at most one
advance per line, independent of the exact fuel), and a document in which
no step can emit a record yields the empty record set rather than an
error. -/
theorem C9_termination :
    ∀ (dt : Str) (dn : Option Str) (lines : List Str) (i : Nat),
      ((scanStep dt dn lines i).2 = 1 ∨ (scanStep dt dn lines i).2 = 2) ∧
      (∀ f1 f2 : Nat, lines.length - i ≤ f1 → lines.length - i ≤ f2 →
        scanAux dt dn lines f1 i = scanAux dt dn lines f2 i) ∧
      ((∀ j, j < lines.length → (scanStep dt dn lines j).1 = none) →
        scanFrom dt dn lines i = []) := by
  intro dt dn lines i
  exact ⟨scanStep_adv dt dn lines i,
    fun f1 f2 h1 h2 => scanAux_congr dt dn lines f1 f2 i h1 h2,
    fun h => scanAux_none dt dn lines h (lines.length - i) i⟩

/-- Witness for C9: a concrete two-line document with no recognizable pair
yields zero records. -/
theorem C9_witness :
    scanFrom exampleToday none [cs "alpha beta", cs "gamma"] 0 = [] :=
  (C9_termination exampleToday none [cs "alpha beta", cs "gamma"] 0).2.2 (by decide)

/-- Facts about the decimal digit character of value `k`. -/
lemma digitChar_facts (k : Nat) (h : k < 10) :
    (Char.ofNat (48 + k)).isDigit = true ∧ charVal (Char.ofNat (48 + k)) = k := by
  interval_cases k <;> exact ⟨by decide, by decide⟩

/-- A digit character is not a date separator and not whitespace. -/
lemma isDigit_not_sep (c : Char) (h : c.isDigit = true) :
    c ≠ '/' ∧ c ≠ '-' ∧ pyIsSpace c = false := by
  refine ⟨?_, ?_, ?_⟩
  · rintro rfl; exact absurd h (by decide)
  · rintro rfl; exact absurd h (by decide)
  · by_contra hsp
    rw [Bool.not_eq_false] at hsp
    simp only [pyIsSpace, Bool.or_eq_true, beq_iff_eq] at hsp
    rcases hsp with ((((h1 | h1) | h1) | h1) | h1) | h1 <;> subst h1 <;>
      exact absurd h (by decide)

lemma pad2_len (n : Nat) : (pad2 n).length = 2 := rfl

lemma pad2_all_digit (n : Nat) : (pad2 n).all Char.isDigit = true := by
  have h1 := digitChar_facts (n / 10 % 10) (Nat.mod_lt _ (by norm_num))
  have h2 := digitChar_facts (n % 10) (Nat.mod_lt _ (by norm_num))
  simp [pad2, h1.1, h2.1]

lemma natOfDigits_pad2 (n : Nat) (h : n ≤ 99) : natOfDigits (pad2 n) = n := by
  have h1 := digitChar_facts (n / 10 % 10) (Nat.mod_lt _ (by norm_num))
  have h2 := digitChar_facts (n % 10) (Nat.mod_lt _ (by norm_num))
  simp [natOfDigits, pad2, h1.2, h2.2]
  omega

lemma pad4_len (y : Nat) : (pad4 y).length = 4 := rfl

lemma pad4_all_digit (y : Nat) : (pad4 y).all Char.isDigit = true := by
  have h1 := digitChar_facts (y / 1000 % 10) (Nat.mod_lt _ (by norm_num))
  have h2 := digitChar_facts (y / 100 % 10) (Nat.mod_lt _ (by norm_num))
  have h3 := digitChar_facts (y / 10 % 10) (Nat.mod_lt _ (by norm_num))
  have h4 := digitChar_facts (y % 10) (Nat.mod_lt _ (by norm_num))
  simp [pad4, h1.1, h2.1, h3.1, h4.1]

lemma natOfDigits_pad4 (y : Nat) (h : y ≤ 9999) : natOfDigits (pad4 y) = y := by
  have h1 := digitChar_facts (y / 1000 % 10) (Nat.mod_lt _ (by norm_num))
  have h2 := digitChar_facts (y / 100 % 10) (Nat.mod_lt _ (by norm_num))
  have h3 := digitChar_facts (y / 10 % 10) (Nat.mod_lt _ (by norm_num))
  have h4 := digitChar_facts (y % 10) (Nat.mod_lt _ (by norm_num))
  simp [natOfDigits, pad4, h1.2, h2.2, h3.2, h4.2]
  omega

lemma yearField_pad4 (y : Nat) (h : y ≤ 9999) : yearField (pad4 y) = some y := by
  unfold yearField
  rw [if_pos ⟨pad4_len y, pad4_all_digit y⟩, natOfDigits_pad4 y h]

lemma yearField_pad2 (n : Nat) : yearField (pad2 n) = none := by
  unfold yearField
  rw [if_neg]
  rintro ⟨hl, _⟩
  rw [pad2_len n] at hl
  exact absurd hl (by decide)

lemma monthField_pad2 (m : Nat) (h1 : 1 ≤ m) (h2 : m ≤ 12) :
    monthField (pad2 m) = some m := by
  have hv := natOfDigits_pad2 m (by omega)
  unfold monthField
  rw [if_pos ⟨Or.inr (pad2_len m), pad2_all_digit m, by omega, by omega⟩, hv]

lemma monthField_pad2_none (d : Nat) (h12 : 12 < d) (h99 : d ≤ 99) :
    monthField (pad2 d) = none := by
  unfold monthField
  rw [if_neg]
  rintro ⟨_, _, _, hle⟩
  rw [natOfDigits_pad2 d h99] at hle
  omega

lemma dayField_pad2 (d : Nat) (h1 : 1 ≤ d) (h2 : d ≤ 31) :
    dayField (pad2 d) = some d := by
  have hv := natOfDigits_pad2 d (by omega)
  unfold dayField
  rw [if_pos ⟨Or.inr (pad2_len d), pad2_all_digit d, by omega, by omega⟩, hv]

lemma daysInMonth_le (y m : Nat) : daysInMonth y m ≤ 31 := by
  unfold daysInMonth
  split_ifs <;> omega

lemma splitP_of_none (p : Char → Bool) (l : Str) (h : ∀ c ∈ l, p c = false) :
    splitP p l = [l] := by
  induction l with
  | nil => rfl
  | cons c rest ih =>
    have hc : p c = false := h c (List.mem_cons_self c rest)
    have ih2 := ih (fun x hx => h x (List.mem_cons_of_mem c hx))
    simp [splitP, hc, ih2]

lemma splitP_append (p : Char → Bool) (a : Str) (sep : Char) (b : Str)
    (ha : ∀ c ∈ a, p c = false) (hsep : p sep = true) :
    splitP p (a ++ sep :: b) = a :: splitP p b := by
  induction a with
  | nil => simp [splitP, hsep]
  | cons c rest ih =>
    have hc : p c = false := ha c (List.mem_cons_self c rest)
    have ih2 := ih (fun x hx => ha x (List.mem_cons_of_mem c hx))
    rcases hr : splitP p (rest ++ sep :: b) with _ | ⟨t, ts⟩
    · rw [hr] at ih2; exact absurd ih2 (by simp)
    · simp [splitP, hc, hr]
      rw [hr] at ih2
      exact ⟨(List.cons.injEq _ _ _ _ ▸ ih2).1 ▸ rfl, (List.cons.injEq _ _ _ _ ▸ ih2).2 ▸ rfl⟩

lemma dropWhile_of_none {p : Char → Bool} {l : Str} (h : ∀ c ∈ l, p c = false) :
    l.dropWhile p = l := by
  cases l with
  | nil => rfl
  | cons c rest =>
    rw [List.dropWhile_cons, h c (List.mem_cons_self c rest)]
    simp

lemma pyStrip_of_none (l : Str) (h : ∀ c ∈ l, pyIsSpace c = false) :
    pyStrip l = l := by
  unfold pyStrip
  rw [dropWhile_of_none h,
    dropWhile_of_none (fun c hc => h c (List.mem_reverse.mp hc)),
    List.reverse_reverse]

/-- A calendar date written year-first with the given separator, two-digit
month and day (the `YYYY/MM/DD` and `YYYY-MM-DD` input forms). -/
def ymdStr (sep : Char) (y m d : Nat) : Str :=
  pad4 y ++ sep :: (pad2 m ++ sep :: pad2 d)

/-- A calendar date written day-first (`DD/MM/YYYY`). -/
def dmyStr (d m y : Nat) : Str :=
  pad2 d ++ '/' :: (pad2 m ++ '/' :: pad4 y)

/-- A calendar date written month-first (`MM/DD/YYYY`). -/
def mdyStr (m d y : Nat) : Str :=
  pad2 m ++ '/' :: (pad2 d ++ '/' :: pad4 y)

lemma mem_dateStr {a b c2 : Str} {s1 s2 ch : Char}
    (hch : ch ∈ a ++ s1 :: (b ++ s2 :: c2)) :
    ch ∈ a ∨ ch = s1 ∨ ch ∈ b ∨ ch = s2 ∨ ch ∈ c2 := by
  simp only [List.mem_append, List.mem_cons] at hch
  tauto

/-- No character of a digits-and-separators date string is whitespace. -/
lemma noSpace_dateStr (a b c2 : Str) (s1 s2 : Char)
    (ha : a.all Char.isDigit = true) (hb : b.all Char.isDigit = true)
    (hc : c2.all Char.isDigit = true)
    (hs1 : pyIsSpace s1 = false) (hs2 : pyIsSpace s2 = false) :
    ∀ ch ∈ a ++ s1 :: (b ++ s2 :: c2), pyIsSpace ch = false := by
  intro ch hch
  rcases mem_dateStr hch with h | rfl | h | rfl | h
  · exact (isDigit_not_sep ch (List.all_eq_true.mp ha ch h)).2.2
  · exact hs1
  · exact (isDigit_not_sep ch (List.all_eq_true.mp hb ch h)).2.2
  · exact hs2
  · exact (isDigit_not_sep ch (List.all_eq_true.mp hc ch h)).2.2

/-- Digit characters never equal a slash-or-dash separator. -/
lemma all_digit_not_sep {l : Str} (h : l.all Char.isDigit = true) (sep : Char)
    (hsep : sep = '/' ∨ sep = '-') : ∀ c ∈ l, (c == sep) = false := by
  intro c hc
  have hd := isDigit_not_sep c (List.all_eq_true.mp h c hc)
  rcases hsep with rfl | rfl
  · exact beq_eq_false_iff_ne.mpr hd.1
  · exact beq_eq_false_iff_ne.mpr hd.2.1

/-- Splitting a three-field date string at its own separator yields the
three fields. -/
lemma splitSep_dateStr (sep : Char) (hs : sep = '/' ∨ sep = '-')
    (a b c2 : Str) (ha : a.all Char.isDigit = true)
    (hb : b.all Char.isDigit = true) (hc : c2.all Char.isDigit = true) :
    splitSep sep (a ++ sep :: (b ++ sep :: c2)) = [a, b, c2] := by
  unfold splitSep
  rw [splitP_append _ a sep _ (all_digit_not_sep ha sep hs) (by simp),
    splitP_append _ b sep _ (all_digit_not_sep hb sep hs) (by simp),
    splitP_of_none _ c2 (all_digit_not_sep hc sep hs)]

/-- Splitting at a separator that occurs nowhere leaves the string whole. -/
lemma splitSep_no_occ (sep : Char) (l : Str) (h : ∀ c ∈ l, (c == sep) = false) :
    splitSep sep l = [l] :=
  splitP_of_none _ l h

/-- A slash-separated date string contains no dash. -/
lemma no_dash_slashStr (a b c2 : Str) (ha : a.all Char.isDigit = true)
    (hb : b.all Char.isDigit = true) (hc : c2.all Char.isDigit = true) :
    ∀ ch ∈ a ++ '/' :: (b ++ '/' :: c2), (ch == '-') = false := by
  intro ch hch
  rcases mem_dateStr hch with h | rfl | h | rfl | h
  · exact all_digit_not_sep ha '-' (Or.inr rfl) ch h
  · decide
  · exact all_digit_not_sep hb '-' (Or.inr rfl) ch h
  · decide
  · exact all_digit_not_sep hc '-' (Or.inr rfl) ch h

/-- A dash-separated date string contains no slash. -/
lemma no_slash_dashStr (a b c2 : Str) (ha : a.all Char.isDigit = true)
    (hb : b.all Char.isDigit = true) (hc : c2.all Char.isDigit = true) :
    ∀ ch ∈ a ++ '-' :: (b ++ '-' :: c2), (ch == '/') = false := by
  intro ch hch
  rcases mem_dateStr hch with h | rfl | h | rfl | h
  · exact all_digit_not_sep ha '/' (Or.inl rfl) ch h
  · decide
  · exact all_digit_not_sep hb '/' (Or.inl rfl) ch h
  · decide
  · exact all_digit_not_sep hc '/' (Or.inl rfl) ch h

/-- `%Y<sep>%m<sep>%d` parses a well-formed year-first string back to its
components. -/
lemma parseYMD_build (sep : Char) (hs : sep = '/' ∨ sep = '-') (y m d : Nat)
    (hy1 : 1 ≤ y) (hy2 : y ≤ 9999) (hm1 : 1 ≤ m) (hm2 : m ≤ 12)
    (hd1 : 1 ≤ d) (hd2 : d ≤ daysInMonth y m) :
    parseYMD sep (ymdStr sep y m d) = some (y, m, d) := by
  have hd31 : d ≤ 31 := le_trans hd2 (daysInMonth_le y m)
  unfold parseYMD ymdStr
  rw [splitSep_dateStr sep hs _ _ _ (pad4_all_digit y) (pad2_all_digit m)
    (pad2_all_digit d)]
  simp [yearField_pad4 y hy2, monthField_pad2 m hm1 hm2,
    dayField_pad2 d hd1 hd31, mkValidated, hy1, hy2, hm1, hm2, hd1, hd2]

/-- `%Y/%m/%d` rejects any slash-separated string whose first field has
two digits. -/
lemma parseYMD_slash_dd (x1 x2 y : Nat) :
    parseYMD '/' (pad2 x1 ++ '/' :: (pad2 x2 ++ '/' :: pad4 y)) = none := by
  unfold parseYMD
  rw [splitSep_dateStr '/' (Or.inl rfl) _ _ _ (pad2_all_digit x1)
    (pad2_all_digit x2) (pad4_all_digit y)]
  simp [yearField_pad2 x1]

/-- `%Y-%m-%d` rejects any slash-separated date string (no dash occurs). -/
lemma parseYMD_dash_slashStr (a b c2 : Str) (ha : a.all Char.isDigit = true)
    (hb : b.all Char.isDigit = true) (hc : c2.all Char.isDigit = true) :
    parseYMD '-' (a ++ '/' :: (b ++ '/' :: c2)) = none := by
  unfold parseYMD
  rw [splitSep_no_occ '-' _ (no_dash_slashStr a b c2 ha hb hc)]

/-- `%Y/%m/%d` rejects any dash-separated date string (no slash occurs). -/
lemma parseYMD_slash_dashStr (a b c2 : Str) (ha : a.all Char.isDigit = true)
    (hb : b.all Char.isDigit = true) (hc : c2.all Char.isDigit = true) :
    parseYMD '/' (a ++ '-' :: (b ++ '-' :: c2)) = none := by
  unfold parseYMD
  rw [splitSep_no_occ '/' _ (no_slash_dashStr a b c2 ha hb hc)]

/-- `%d/%m/%Y` parses a well-formed day-first string back to its
components. -/
lemma parseDMY_build (y m d : Nat)
    (hy1 : 1 ≤ y) (hy2 : y ≤ 9999) (hm1 : 1 ≤ m) (hm2 : m ≤ 12)
    (hd1 : 1 ≤ d) (hd2 : d ≤ daysInMonth y m) :
    parseDMY (dmyStr d m y) = some (y, m, d) := by
  have hd31 : d ≤ 31 := le_trans hd2 (daysInMonth_le y m)
  unfold parseDMY dmyStr
  rw [splitSep_dateStr '/' (Or.inl rfl) _ _ _ (pad2_all_digit d)
    (pad2_all_digit m) (pad4_all_digit y)]
  simp [yearField_pad4 y hy2, monthField_pad2 m hm1 hm2,
    dayField_pad2 d hd1 hd31, mkValidated, hy1, hy2, hm1, hm2, hd1, hd2]

/-- `%d/%m/%Y` applied to a month-first string whose day-first reading is a
valid date yields that day-first reading. -/
lemma parseDMY_mdy_valid (y m d : Nat)
    (hy1 : 1 ≤ y) (hy2 : y ≤ 9999) (hm1 : 1 ≤ m) (hm2 : m ≤ 12)
    (hd1 : 1 ≤ d) (hd12 : d ≤ 12) (hval : m ≤ daysInMonth y d) :
    parseDMY (mdyStr m d y) = some (y, d, m) := by
  unfold parseDMY mdyStr
  rw [splitSep_dateStr '/' (Or.inl rfl) _ _ _ (pad2_all_digit m)
    (pad2_all_digit d) (pad4_all_digit y)]
  simp [dayField_pad2 m hm1 (by omega), monthField_pad2 d hd1 hd12,
    yearField_pad4 y hy2, mkValidated, hy1, hy2, hd1, hd12, hm1, hval]

/-- `%d/%m/%Y` rejects a month-first string whose day-first reading
overflows the month (second field at most 12, first field too large for
that month). -/
lemma parseDMY_mdy_none_overflow (y m d : Nat)
    (hy2 : y ≤ 9999) (hm1 : 1 ≤ m) (hm2 : m ≤ 12)
    (hd1 : 1 ≤ d) (hd12 : d ≤ 12) (hgt : daysInMonth y d < m) :
    parseDMY (mdyStr m d y) = none := by
  unfold parseDMY mdyStr
  rw [splitSep_dateStr '/' (Or.inl rfl) _ _ _ (pad2_all_digit m)
    (pad2_all_digit d) (pad4_all_digit y)]
  simp [dayField_pad2 m hm1 (by omega), monthField_pad2 d hd1 hd12,
    yearField_pad4 y hy2]
  unfold mkValidated
  rw [if_neg]
  rintro ⟨_, _, _, _, _, hle⟩
  omega

/-- `%d/%m/%Y` rejects a month-first string whose second field exceeds
12 (no month can be read there). -/
lemma parseDMY_mdy_none_bigd (y m d : Nat)
    (hm1 : 1 ≤ m) (hm2 : m ≤ 12) (h12 : 12 < d) (hd99 : d ≤ 99) :
    parseDMY (mdyStr m d y) = none := by
  unfold parseDMY mdyStr
  rw [splitSep_dateStr '/' (Or.inl rfl) _ _ _ (pad2_all_digit m)
    (pad2_all_digit d) (pad4_all_digit y)]
  simp [dayField_pad2 m hm1 (by omega), monthField_pad2_none d h12 hd99]

/-- `%m/%d/%Y` parses a well-formed month-first string back to its
components. -/
lemma parseMDY_build (y m d : Nat)
    (hy1 : 1 ≤ y) (hy2 : y ≤ 9999) (hm1 : 1 ≤ m) (hm2 : m ≤ 12)
    (hd1 : 1 ≤ d) (hd2 : d ≤ daysInMonth y m) :
    parseMDY (mdyStr m d y) = some (y, m, d) := by
  have hd31 : d ≤ 31 := le_trans hd2 (daysInMonth_le y m)
  unfold parseMDY mdyStr
  rw [splitSep_dateStr '/' (Or.inl rfl) _ _ _ (pad2_all_digit m)
    (pad2_all_digit d) (pad4_all_digit y)]
  simp [monthField_pad2 m hm1 hm2, dayField_pad2 d hd1 hd31,
    yearField_pad4 y hy2, mkValidated, hy1, hy2, hm1, hm2, hd1, hd2]

/-- C4, counterexample: the month-first-declared string `03/05/2024`
(March 5, 2024) normalizes to `2024-05-03` — the day-first reading — and
not to the month-first reading `2024-03-05` the claim requires, because
the `%d/%m/%Y` format is tried before `%m/%d/%Y`. -/
theorem C4_counterexample :
    normalize_date_str (cs "03/05/2024") = some (cs "2024-05-03") ∧
      normalize_date_str (cs "03/05/2024") ≠ some (cs "2024-03-05") := by decide

/-- C4, amended: year-first dates (with slash or dash) normalize to their
declared reading, and day-first-declared dates normalize day-first; but a
two-digit/two-digit/four-digit date declared month-first normalizes to the
month-first reading only when its day-first reading is not a valid
calendar date — whenever the day-first reading is valid, that reading
wins, regardless of the declared format. -/
theorem C4_amended :
    ∀ y m d : Nat, 1000 ≤ y → y ≤ 9999 → 1 ≤ m → m ≤ 12 → 1 ≤ d →
      d ≤ daysInMonth y m →
      normalize_date_str (ymdStr '/' y m d) = some (isoFmt (y, m, d)) ∧
      normalize_date_str (ymdStr '-' y m d) = some (isoFmt (y, m, d)) ∧
      normalize_date_str (dmyStr d m y) = some (isoFmt (y, m, d)) ∧
      (d ≤ 12 ∧ m ≤ daysInMonth y d →
        normalize_date_str (mdyStr m d y) = some (isoFmt (y, d, m))) ∧
      (¬(d ≤ 12 ∧ m ≤ daysInMonth y d) →
        normalize_date_str (mdyStr m d y) = some (isoFmt (y, m, d))) := by
  intro y m d hy1k hy2 hm1 hm2 hd1 hd2
  have hy1 : 1 ≤ y := by omega
  have hd31 : d ≤ 31 := le_trans hd2 (daysInMonth_le y m)
  have hnsY : ∀ sep, pyIsSpace sep = false →
      ∀ ch ∈ ymdStr sep y m d, pyIsSpace ch = false := by
    intro sep hsep
    unfold ymdStr
    exact noSpace_dateStr (pad4 y) (pad2 m) (pad2 d) sep sep
      (pad4_all_digit y) (pad2_all_digit m) (pad2_all_digit d) hsep hsep
  have hnsD : ∀ ch ∈ dmyStr d m y, pyIsSpace ch = false := by
    unfold dmyStr
    exact noSpace_dateStr (pad2 d) (pad2 m) (pad4 y) '/' '/'
      (pad2_all_digit d) (pad2_all_digit m) (pad4_all_digit y)
      (by decide) (by decide)
  have hnsM : ∀ ch ∈ mdyStr m d y, pyIsSpace ch = false := by
    unfold mdyStr
    exact noSpace_dateStr (pad2 m) (pad2 d) (pad4 y) '/' '/'
      (pad2_all_digit m) (pad2_all_digit d) (pad4_all_digit y)
      (by decide) (by decide)
  have hMdy1 : parseYMD '/' (mdyStr m d y) = none := by
    unfold mdyStr; exact parseYMD_slash_dd m d y
  have hMdy2 : parseYMD '-' (mdyStr m d y) = none := by
    unfold mdyStr
    exact parseYMD_dash_slashStr _ _ _ (pad2_all_digit m) (pad2_all_digit d)
      (pad4_all_digit y)
  refine ⟨?_, ?_, ?_, ?_, ?_⟩
  · unfold normalize_date_str
    rw [pyStrip_of_none _ (hnsY '/' (by decide)),
      parseYMD_build '/' (Or.inl rfl) y m d hy1 hy2 hm1 hm2 hd1 hd2]
  · unfold normalize_date_str
    rw [pyStrip_of_none _ (hnsY '-' (by decide))]
    have h1 : parseYMD '/' (ymdStr '-' y m d) = none := by
      unfold ymdStr
      exact parseYMD_slash_dashStr _ _ _ (pad4_all_digit y) (pad2_all_digit m)
        (pad2_all_digit d)
    rw [h1, parseYMD_build '-' (Or.inr rfl) y m d hy1 hy2 hm1 hm2 hd1 hd2]
  · unfold normalize_date_str
    rw [pyStrip_of_none _ hnsD]
    have h1 : parseYMD '/' (dmyStr d m y) = none := by
      unfold dmyStr; exact parseYMD_slash_dd d m y
    have h2 : parseYMD '-' (dmyStr d m y) = none := by
      unfold dmyStr
      exact parseYMD_dash_slashStr _ _ _ (pad2_all_digit d) (pad2_all_digit m)
        (pad4_all_digit y)
    rw [h1, h2, parseDMY_build y m d hy1 hy2 hm1 hm2 hd1 hd2]
  · rintro ⟨hd12, hval⟩
    unfold normalize_date_str
    rw [pyStrip_of_none _ hnsM, hMdy1, hMdy2,
      parseDMY_mdy_valid y m d hy1 hy2 hm1 hm2 hd1 hd12 hval]
  · intro hnot
    unfold normalize_date_str
    rw [pyStrip_of_none _ hnsM, hMdy1, hMdy2]
    by_cases hd12 : d ≤ 12
    · have hgt : daysInMonth y d < m := by
        rcases Nat.lt_or_ge (daysInMonth y d) m with hgt | hle
        · exact hgt
        · exact absurd ⟨hd12, hle⟩ hnot
      rw [parseDMY_mdy_none_overflow y m d hy2 hm1 hm2 hd1 hd12 hgt,
        parseMDY_build y m d hy1 hy2 hm1 hm2 hd1 hd2]
    · rw [parseDMY_mdy_none_bigd y m d hm1 hm2 (by omega) (by omega),
        parseMDY_build y m d hy1 hy2 hm1 hm2 hd1 hd2]

/-- Witness for C4: Christmas 2024 in all four declared forms; the
month-first form `12/25/2024` has no valid day-first reading, so it
normalizes month-first. -/
theorem C4_witness :
    normalize_date_str (ymdStr '/' 2024 12 25) = some (isoFmt (2024, 12, 25)) ∧
      normalize_date_str (mdyStr 12 25 2024) = some (isoFmt (2024, 12, 25)) := by
  have h := C4_amended 2024 12 25 (by decide) (by decide) (by decide) (by decide)
    (by decide) (by decide)
  exact ⟨h.1, h.2.2.2.2 (by decide)⟩
